import Mathlib

/-!
# Verification of the scan-build compiler interception core

Shallow embedding of `libscanbuild/__init__.py` and `analyzer/decorators.py`
(the compiler interception protocol of scan-build): the duplicate filter,
the verbosity resolver, the process entry guard, the command runner, the
wrapper configuration codec (`json.dumps` / `json.loads` on the fixed
config object), and the compiler wrapper driver.

Python strings are modelled as lists of Unicode code points (`List Nat`),
which is exactly what a Python `str` is.  Python exceptions are modelled by
an outcome type distinguishing the branches of the `BaseException`
hierarchy that the sources treat differently: ordinary `Exception`-class
exceptions, `KeyboardInterrupt`, and `SystemExit` (a `BaseException` that
is neither), because the sources use both a bare `except:` (catches every
class) and `except KeyboardInterrupt` / `except Exception` (which let
`SystemExit` escape).
-/

namespace ScanBuild

/-- Class of a raised Python exception: `ordinary` stands for any subclass of
`Exception` (e.g. `KeyError`, `RuntimeError`); `interrupt` stands for
`KeyboardInterrupt` and `systemExit` for `SystemExit` (e.g. from
`sys.exit`), the two `BaseException` branches that do not derive from
`Exception`.  A bare `except:` catches all three classes; `except
Exception` catches only `ordinary`; `except KeyboardInterrupt` catches
only `interrupt`; `SystemExit` is caught by neither named handler. -/
inductive PyExc
  | ordinary
  | interrupt
  | systemExit
deriving DecidableEq, Repr

/-- Outcome of calling a Python function: a returned value or a raised
exception. -/
inductive CallOutcome (α : Type)
  | ok (a : α)
  | raised (e : PyExc)
deriving DecidableEq, Repr

/-- Code points of a string literal; the model of a concrete Python `str`. -/
def strCp (s : String) : List Nat := s.data.map Char.toNat

/-! ## duplicate_check (libscanbuild/__init__.py, lines 21-47)

The factory returns a stateful predicate over a set of hashes.  One call of
the predicate is modelled by `duplicate_check_step` (result plus new state);
feeding a whole sequence of entries through the predicate is modelled by
`duplicate_run` (the results) and `duplicate_state` (the final state). -/

/-- One call of the predicate returned by `duplicate_check`: computes
`hash_function entry`; if the hash is not in the state, adds it and returns
`false`, otherwise returns `true` and leaves the state unchanged. -/
def duplicate_check_step {α β : Type} [DecidableEq β] (hash_function : α → β)
    (state : Finset β) (entry : α) : Bool × Finset β :=
  let entry_hash := hash_function entry
  if entry_hash ∉ state then (false, insert entry_hash state)
  else (true, state)

/-- Results of calling the `duplicate_check` predicate on each entry of a
sequence in order, starting from the given state. -/
def duplicate_run {α β : Type} [DecidableEq β] (hash_function : α → β) :
    List α → Finset β → List Bool
  | [], _ => []
  | e :: es, state =>
    let r := duplicate_check_step hash_function state e
    r.1 :: duplicate_run hash_function es r.2

/-- State of the `duplicate_check` predicate after a sequence of calls. -/
def duplicate_state {α β : Type} [DecidableEq β] (hash_function : α → β) :
    List α → Finset β → Finset β
  | [], state => state
  | e :: es, state =>
    duplicate_state hash_function es (duplicate_check_step hash_function state e).2

/-! ## reconfigure_logging (libscanbuild/__init__.py, lines 92-113)

The function mutates the root logger; the model returns the configuration it
installs, or `none` when `verbose_level == 0` (the early return that leaves
the logging threshold untouched). -/

/-- Numeric value of `logging.WARNING` in CPython. -/
def pyWARNING : Int := 30

/-- Logger configuration installed by `reconfigure_logging`: the numeric
threshold set on the root logger and the message format string. -/
structure LoggingConfig where
  threshold : Int
  fmt : String
deriving DecidableEq, Repr

/-- Model of `reconfigure_logging`: returns `none` when the early
`verbose_level == 0` exit is taken (no reconfiguration), otherwise the
installed threshold `WARNING - min(WARNING, 10 * verbose_level)` and the
format string chosen by the `verbose_level <= 3` test. -/
def reconfigure_logging (verbose_level : Nat) : Option LoggingConfig :=
  if verbose_level = 0 then
    none
  else
    some { threshold := pyWARNING - min pyWARNING (10 * (verbose_level : Int)),
           fmt := if verbose_level ≤ 3 then
                    "%(name)s: %(levelname)s: %(message)s"
                  else
                    "%(name)s: %(levelname)s: %(funcName)s: %(message)s" }

/-- A format string includes the invoking function name when it contains the
`%(funcName)s` conversion as a substring. -/
def includesFuncName (fmt : String) : Prop :=
  (strCp "%(funcName)s") <:+: (strCp fmt)

instance (fmt : String) : Decidable (includesFuncName fmt) :=
  inferInstanceAs (Decidable ((strCp "%(funcName)s") <:+: (strCp fmt)))

/-! ## command_entry_point (libscanbuild/__init__.py, lines 116-150)

The decorator's wrapper runs the decorated function under
`try / except KeyboardInterrupt / except Exception / finally`.  The model
returns the process exit code together with the trace of housekeeping
effects (logged diagnostics and the `logging.shutdown()` of the `finally`
block). -/

/-- Observable logging effects of the `command_entry_point` wrapper. -/
inductive LogEvent
  | warnedInterrupt
  | loggedException
  | shutdown
deriving DecidableEq, Repr

/-- Model of the wrapper produced by `command_entry_point`: the decorated
function's return value becomes the exit code; `KeyboardInterrupt` yields
`130`; any other `Exception`-class exception yields `64` after
`logging.exception`; a `SystemExit` matches neither `except
KeyboardInterrupt` nor `except Exception` and propagates out of the
wrapper; the `finally` block runs `logging.shutdown()` on every path,
propagation included. -/
def command_entry_point (function : Unit → CallOutcome Int) :
    CallOutcome Int × List LogEvent :=
  match function () with
  | .ok v => (.ok v, [.shutdown])
  | .raised .interrupt => (.ok 130, [.warnedInterrupt, .shutdown])
  | .raised .ordinary => (.ok 64, [.loggedException, .shutdown])
  | .raised .systemExit => (.raised .systemExit, [.shutdown])

/-! ## require (analyzer/decorators.py, lines 23-47)

The decorated function takes the state dictionary `opts` (modelled by its
key set) and returns a `CallOutcome`.  The wrapper first runs the
`precondition` loop, which raises `KeyError` (an ordinary `Exception`) at
the first required key missing from `opts`; `except Exception` converts
ordinary exceptions to a logged `None` return, but a `KeyboardInterrupt`
or `SystemExit` raised by the wrapped function is not caught by it. -/

/-- Model of the wrapper produced by `require`: `opts` is the list of keys
present in the state dictionary. -/
def require {α : Type} (required : List Nat) (function : List Nat → CallOutcome α)
    (opts : List Nat) : CallOutcome (Option α) :=
  if required.all (fun key => opts.contains key) then
    match function opts with
    | .ok a => .ok (some a)
    | .raised .ordinary => .ok none
    | .raised .interrupt => .raised .interrupt
    | .raised .systemExit => .raised .systemExit
  else
    .ok none

/-! ## run_command (libscanbuild/__init__.py, lines 69-89)

`subprocess.check_output(command, cwd=..., stderr=subprocess.STDOUT)`
captures the merged stdout+stderr stream and raises `CalledProcessError` on
a non-zero exit status.  The model takes the command's behaviour — its exit
status and its captured combined output, a Python string of code points
(`decode_when_needed` normalises the `bytes`-vs-`str` transport) — and
returns either the output lines or the error carrying the status and the
same lines. -/

/-- A code point at which Python's `str.splitlines` breaks a line:
`\n`, `\v`, `\f`, `\r`, `\x1c`, `\x1d`, `\x1e`, `\x85`, ` `, ` `. -/
def isLineBoundary (c : Nat) : Bool :=
  c = 10 ∨ c = 11 ∨ c = 12 ∨ c = 13 ∨ c = 28 ∨ c = 29 ∨ c = 30 ∨
    c = 133 ∨ c = 8232 ∨ c = 8233

/-- Worker for `splitlines`: `acc` holds the current line reversed; the
`\r\n` pair is consumed as a single boundary, all other boundaries (`\r`
included) one code point at a time. -/
def splitlinesAux : List Nat → List Nat → List (List Nat)
  | [], acc => if acc.isEmpty then [] else [acc.reverse]
  | 13 :: 10 :: rest, acc => acc.reverse :: splitlinesAux rest []
  | c :: rest, acc =>
    if isLineBoundary c then
      acc.reverse :: splitlinesAux rest []
    else
      splitlinesAux rest (c :: acc)

/-- Model of Python's `str.splitlines()` (keepends false): splits at line
boundaries, treats `\r\n` as a single boundary, drops the terminators, and
does not produce a final empty line for trailing terminators. -/
def splitlines (text : List Nat) : List (List Nat) :=
  splitlinesAux text []

/-- Model of `run_command`: given the executed command's exit status and its
captured combined output, return the decoded output lines on exit status
zero, and raise `CalledProcessError` — carrying the status and the decoded,
line-split output — otherwise. -/
def run_command (exitStatus : Int) (output : List Nat) :
    Except (Int × List (List Nat)) (List (List Nat)) :=
  if exitStatus = 0 then
    .ok (splitlines output)
  else
    .error (exitStatus, splitlines output)

/-! ## Wrapper configuration codec
(libscanbuild/__init__.py, lines 198-207 and 172-176)

`wrapper_environment` produces `json.dumps({'verbose': ..., 'cc': ...,
'cxx': ...})` (CPython defaults: `ensure_ascii=True`, separators `", "` and
`": "`, insertion key order), and `wrapper_entry_point` recovers the
configuration with `json.loads`.  Both sides are modelled at the
code-point level.  The decoder implements `json.loads` on the sublanguage
the encoder produces — a `\x7b"verbose": <int>, "cc": <string>, "cxx":
<string>\x7d` object — with CPython's full string-literal scanner: short
escapes, `\uXXXX` escapes (either hex case), surrogate-pair recombination,
lone surrogates kept, and unescaped control characters rejected
(`strict=True`). -/

/-- A code point that a Python string can hold without breaking the JSON
round trip: any Unicode scalar value (surrogate code points are excluded,
exactly as adjacent lone surrogates defeat `json.loads(json.dumps(s))` in
CPython as well). -/
def validScalar (c : Nat) : Prop := c < 55296 ∨ (57344 ≤ c ∧ c < 1114112)

instance (c : Nat) : Decidable (validScalar c) :=
  inferInstanceAs (Decidable (c < 55296 ∨ (57344 ≤ c ∧ c < 1114112)))

/-- Lowercase hex digit (code point) of a value below 16, as printed by
CPython's `'\u%04x'` escape formatting. -/
def hexDig (d : Nat) : Nat := if d < 10 then 48 + d else 87 + d

/-- Four lowercase hex digits of a value below 65536. -/
def hex4 (n : Nat) : List Nat :=
  [hexDig (n / 4096 % 16), hexDig (n / 256 % 16), hexDig (n / 16 % 16),
   hexDig (n % 16)]

/-- Encoding of a single code point by `json.dumps` with `ensure_ascii`
(CPython's `py_encode_basestring_ascii`): shorthand escapes for `"`, `\`,
and the five short control escapes; printable ASCII kept; everything else
as `\uXXXX`, astral code points as a surrogate pair. -/
def encodeChar (c : Nat) : List Nat :=
  if c = 34 then [92, 34]
  else if c = 92 then [92, 92]
  else if c = 8 then [92, 98]
  else if c = 9 then [92, 116]
  else if c = 10 then [92, 110]
  else if c = 12 then [92, 102]
  else if c = 13 then [92, 114]
  else if 32 ≤ c ∧ c ≤ 126 then [c]
  else if c < 65536 then 92 :: 117 :: hex4 c
  else
    (92 :: 117 :: hex4 (55296 + (c - 65536) / 1024)) ++
      (92 :: 117 :: hex4 (56320 + (c - 65536) % 1024))

/-- JSON string literal for a Python string: quote, escaped body, quote. -/
def encodeString (s : List Nat) : List Nat :=
  34 :: (s.flatMap encodeChar ++ [34])

/-- Worker for `natRepr`; the fuel argument only bounds the recursion depth
(`n + 1` always suffices, since `n / 10 < n` for `n ≥ 10`). -/
def natReprAux : Nat → Nat → List Nat
  | 0, _ => []
  | fuel + 1, n =>
    if n < 10 then [48 + n] else natReprAux fuel (n / 10) ++ [48 + n % 10]

/-- Decimal digits of a natural number, as printed by `json.dumps` for a
non-negative `int`. -/
def natRepr (n : Nat) : List Nat := natReprAux (n + 1) n

/-- The transport value produced by `wrapper_environment` for the
`INTERCEPT_BUILD` environment variable:
`json.dumps({'verbose': args.verbose, 'cc': args.cc, 'cxx': args.cxx})`. -/
structure WrapperConfig where
  verbose : Nat
  cc : List Nat
  cxx : List Nat
deriving DecidableEq, Repr

/-- Code points of the literal `\x7b"verbose": ` opening the transport
object. -/
def tokVerbose : List Nat := [123, 34, 118, 101, 114, 98, 111, 115, 101, 34, 58, 32]

/-- Code points of the literal `, "cc": ` separating the fields. -/
def tokCc : List Nat := [44, 32, 34, 99, 99, 34, 58, 32]

/-- Code points of the literal `, "cxx": ` separating the fields. -/
def tokCxx : List Nat := [44, 32, 34, 99, 120, 120, 34, 58, 32]

/-- Model of `wrapper_environment`: the `json.dumps` transport string for
the configuration, code point by code point. -/
def wrapper_environment (cfg : WrapperConfig) : List Nat :=
  tokVerbose ++ natRepr cfg.verbose ++
    tokCc ++ encodeString cfg.cc ++
    tokCxx ++ encodeString cfg.cxx ++ [125]

/-- Value of a hex digit code point, either case (JSON accepts both). -/
def parseHexDig (c : Nat) : Option Nat :=
  if 48 ≤ c ∧ c ≤ 57 then some (c - 48)
  else if 97 ≤ c ∧ c ≤ 102 then some (c - 87)
  else if 65 ≤ c ∧ c ≤ 70 then some (c - 55)
  else none

/-- Value of four hex digit code points. -/
def parseHex4 (h1 h2 h3 h4 : Nat) : Option Nat :=
  match parseHexDig h1, parseHexDig h2, parseHexDig h3, parseHexDig h4 with
  | some a, some b, some c, some d => some (((a * 16 + b) * 16 + c) * 16 + d)
  | _, _, _, _ => none

/-- Parse one `\uXXXX` escape (the scanner's surrogate-pair lookahead). -/
def parseU : List Nat → Option (Nat × List Nat)
  | 92 :: 117 :: h1 :: h2 :: h3 :: h4 :: rest =>
    match parseHex4 h1 h2 h3 h4 with
    | some n => some (n, rest)
    | none => none
  | _ => none

/-- Value of a JSON short escape character (`json.decoder.BACKSLASH`),
excluding `u`. -/
def escChar (e : Nat) : Option Nat :=
  if e = 34 then some 34
  else if e = 92 then some 92
  else if e = 47 then some 47
  else if e = 98 then some 8
  else if e = 102 then some 12
  else if e = 110 then some 10
  else if e = 114 then some 13
  else if e = 116 then some 9
  else none

/-- Prepend a scanned code point to a parse result. -/
def consResult (c : Nat) (r : Option (List Nat × List Nat)) :
    Option (List Nat × List Nat) :=
  r.map (fun p => (c :: p.1, p.2))

/-- CPython's JSON string scanner (`py_scanstring`), entered after the
opening quote: returns the decoded string and the input after the closing
quote.  `\uXXXX` escapes in the high-surrogate range are recombined with an
immediately following low-surrogate escape; other surrogate escapes are
kept as lone code points; unescaped control characters and invalid escapes
fail the scan.  The fuel argument only bounds the number of loop
iterations; every iteration consumes at least one input code point, so
`input.length + 1` — as supplied by `parseStringBody` — always suffices. -/
def parseStringBodyF : Nat → List Nat → Option (List Nat × List Nat)
  | 0, _ => none
  | _ + 1, [] => none
  | fuel + 1, c :: rest =>
    if c = 34 then some ([], rest)
    else if c = 92 then
      match rest with
      | [] => none
      | e :: rest1 =>
        if e = 117 then
          match rest1 with
          | h1 :: h2 :: h3 :: h4 :: rest4 =>
            match parseHex4 h1 h2 h3 h4 with
            | none => none
            | some n =>
              if 55296 ≤ n ∧ n < 56320 then
                match parseU rest4 with
                | some (m, rest6) =>
                  if 56320 ≤ m ∧ m < 57344 then
                    consResult (65536 + (n - 55296) * 1024 + (m - 56320))
                      (parseStringBodyF fuel rest6)
                  else
                    consResult n (parseStringBodyF fuel rest4)
                | none => consResult n (parseStringBodyF fuel rest4)
              else
                consResult n (parseStringBodyF fuel rest4)
          | _ => none
        else
          match escChar e with
          | some d => consResult d (parseStringBodyF fuel rest1)
          | none => none
    else if c < 32 then none
    else consResult c (parseStringBodyF fuel rest)

/-- The JSON string scanner on a given input, with enough fuel. -/
def parseStringBody (s : List Nat) : Option (List Nat × List Nat) :=
  parseStringBodyF (s.length + 1) s

/-- Greedy decimal digit scan with an accumulator. -/
def parseDigits : List Nat → Nat → (Nat × List Nat)
  | [], acc => (acc, [])
  | c :: rest, acc =>
    if 48 ≤ c ∧ c ≤ 57 then parseDigits rest (acc * 10 + (c - 48))
    else (acc, c :: rest)

/-- Parse a non-negative JSON integer (the number form `json.dumps` emits
for the `verbose` field). -/
def parseNat : List Nat → Option (Nat × List Nat)
  | [] => none
  | c :: rest =>
    if 48 ≤ c ∧ c ≤ 57 then some (parseDigits rest (c - 48)) else none

/-- Consume an exact literal token from the input. -/
def stripTok : List Nat → List Nat → Option (List Nat)
  | [], s => some s
  | t :: ts, c :: s => if t = c then stripTok ts s else none
  | _ :: _, [] => none

/-- Model of the `json.loads` parse performed by `wrapper_entry_point` on
the transport value: `json.loads` restricted to the object language
`wrapper_environment` produces (fixed key order and separators, full JSON
string-literal and non-negative-integer syntax inside it); `none` models a
raised `json.JSONDecodeError`. -/
def jsonDecodeConfig (s : List Nat) : Option WrapperConfig := do
  let s ← stripTok tokVerbose s
  let (v, s) ← parseNat s
  let s ← stripTok (tokCc ++ [34]) s
  let (cc, s) ← parseStringBody s
  let s ← stripTok (tokCxx ++ [34]) s
  let (cxx, s) ← parseStringBody s
  let s ← stripTok [125] s
  if s.isEmpty then some ⟨v, cc, cxx⟩ else none

/-- Horner value of a digit string on top of an accumulator, as computed by
the digit-consuming loop. -/
def digitsVal (ds : List Nat) (acc : Nat) : Nat :=
  ds.foldl (fun a c => a * 10 + (c - 48)) acc

/-! ## wrapper_entry_point (libscanbuild/__init__.py, lines 153-195)

The decorator's wrapper reads the transport value from the environment
(`os.environ[ENVIRONMENT_KEY]` raises `KeyError` when absent; `json.loads`
raises `json.JSONDecodeError` when unparseable), resolves the compiler
personality from its own invoked basename with
`re.match(r'(.+)c\+\+(.*)', wrapper_command)`, executes the real compiler
synchronously, calls the wrapped reporting function inside a bare
`try/except`, and returns the compiler's exit code.  The model takes the
environment value, the basename, `sys.argv[1:]`, the behaviour of
`subprocess.call` and the behaviour of the wrapped reporting function, and
returns the outcome together with the trace of external effects.  The
`reconfigure_logging(verbose)` call mutates only the logging subsystem and
is not part of the observable outcome modelled here. -/

/-- Test for `c++` at the head of the list. -/
def startsWithCpp (l : List Nat) : Bool :=
  match l with
  | a :: b :: c :: _ => a == 99 && b == 43 && c == 43
  | _ => false

/-- Search for `c++` where every code point skipped over becomes part of
the regex's `(.+)` prefix and therefore must be matchable by `.`, which
excludes the newline (code point 10). -/
def cxxSearch : List Nat → Bool
  | [] => false
  | c :: rest => startsWithCpp (c :: rest) || (c != 10 && cxxSearch rest)

/-- Boolean value of `re.match(r'(.+)c\+\+(.*)', wrapper_command)`: the
pattern anchors at the start and requires at least one character before a
literal `c++`, and `.` does not match a newline, so it succeeds exactly
when `c++` occurs at a position of the basename that is not the very
beginning with no newline anywhere before it.  (The trailing `(.*)` can
match the empty string and `re.match` needs no full match, so what follows
`c++` is unconstrained.) -/
def is_cxx (wrapper_command : List Nat) : Bool :=
  match wrapper_command with
  | [] => false
  | c :: rest => c != 10 && cxxSearch rest

/-- Modelled from the spec: `libscanbuild.shell.decode` (module
`libscanbuild/shell.py`, not under src/) turns the stored compiler value
into the command prefix; per the spec's `PersonalityResolved → Compiled`
step the real command is `[resolvedCompilerPath] + arguments`, so the
prefix is the one-element list holding the resolved compiler path. -/
def shell_decode (compiler : List Nat) : List (List Nat) := [compiler]

/-- The compiler chosen by lines 178-180:
`parameters['cxx'] if is_cxx else parameters['cc']`. -/
def selected_compiler (wrapper_command : List Nat)
    (parameters : WrapperConfig) : List Nat :=
  if is_cxx wrapper_command then parameters.cxx else parameters.cc

/-- External effects of one wrapper run. -/
inductive WrapperEvent
  | compilerCall (command : List (List Nat))
  | reportCall
deriving DecidableEq, Repr

/-- Model of the wrapper produced by `wrapper_entry_point`.  `env` is the
`INTERCEPT_BUILD` environment value; `wrapper_command` the invoked
basename; `args` is `sys.argv[1:]`; `call` gives the real compiler's exit
code for the executed command; `function` is the wrapped reporting method,
called with the resolved compiler, the executed command, the exit code and
the configured cc/cxx paths.  A raised outcome models an exception
escaping the wrapper; the event list records the effects in order. -/
def wrapper_entry_point (env : Option (List Nat)) (wrapper_command : List Nat)
    (args : List (List Nat)) (call : List (List Nat) → Int)
    (function : List Nat → List (List Nat) → Int → List Nat → List Nat →
      CallOutcome Unit) :
    CallOutcome (Int × List WrapperEvent) :=
  match env with
  | none => .raised .ordinary
  | some transport =>
    match jsonDecodeConfig transport with
    | none => .raised .ordinary
    | some parameters =>
      let compiler := selected_compiler wrapper_command parameters
      let command := shell_decode compiler ++ args
      let result := call command
      match function compiler command result parameters.cc parameters.cxx with
      | .ok _ => .ok (result, [.compilerCall command, .reportCall])
      | .raised _ => .ok (result, [.compilerCall command, .reportCall])

theorem duplicate_run_cons {α β : Type} [DecidableEq β] (hash_function : α → β)
    (e : α) (es : List α) (state : Finset β) :
    duplicate_run hash_function (e :: es) state =
      decide (hash_function e ∈ state) ::
        duplicate_run hash_function es (insert (hash_function e) state) := by
  by_cases h : hash_function e ∈ state
  · simp [duplicate_run, duplicate_check_step, h, Finset.insert_eq_self.mpr h]
  · simp [duplicate_run, duplicate_check_step, h]

theorem duplicate_run_length {α β : Type} [DecidableEq β] (hash_function : α → β)
    (es : List α) (state : Finset β) :
    (duplicate_run hash_function es state).length = es.length := by
  induction es generalizing state with
  | nil => rfl
  | cons e es ih => rw [duplicate_run_cons]; simp [ih]

theorem duplicate_state_cons {α β : Type} [DecidableEq β] (hash_function : α → β)
    (e : α) (es : List α) (state : Finset β) :
    duplicate_state hash_function (e :: es) state =
      duplicate_state hash_function es (insert (hash_function e) state) := by
  by_cases h : hash_function e ∈ state
  · simp [duplicate_state, duplicate_check_step, h, Finset.insert_eq_self.mpr h]
  · simp [duplicate_state, duplicate_check_step, h]

theorem duplicate_state_grows {α β : Type} [DecidableEq β] (hash_function : α → β)
    (es : List α) (state : Finset β) :
    state ⊆ duplicate_state hash_function es state := by
  induction es generalizing state with
  | nil => exact fun _ h => h
  | cons e es ih =>
    rw [duplicate_state_cons]
    exact fun x hx => ih (insert (hash_function e) state) (Finset.mem_insert_of_mem hx)

/-- The entry at position `i` of the results is `true` iff its hash is in the
initial state or among the hashes of the first `i` entries. -/
theorem duplicate_run_get {α β : Type} [DecidableEq β] (hash_function : α → β)
    (es : List α) (state : Finset β) (i : Nat) (hi : i < es.length) :
    (duplicate_run hash_function es state)[i]? =
      some (decide (hash_function (es.get ⟨i, hi⟩) ∈
        state ∪ ((es.take i).map hash_function).toFinset)) := by
  induction es generalizing state i with
  | nil => exact absurd hi (Nat.not_lt_zero i)
  | cons e es ih =>
    match i with
    | 0 => simp [duplicate_run_cons]
    | i + 1 =>
      have hi' : i < es.length := Nat.lt_of_succ_lt_succ hi
      rw [duplicate_run_cons, List.getElem?_cons_succ,
        ih (insert (hash_function e) state) i hi']
      simp [Finset.insert_union]

theorem tokVerbose_text : tokVerbose = strCp "\x7b\"verbose\": " := by decide

theorem tokCc_text : tokCc = strCp ", \"cc\": " := by decide

theorem tokCxx_text : tokCxx = strCp ", \"cxx\": " := by decide

/-! ### Round trip of the string codec -/

theorem parseHexDig_hexDig : ∀ d : Nat, d < 16 → parseHexDig (hexDig d) = some d := by
  decide

theorem parseHex4_hex4 (n : Nat) (hn : n < 65536) :
    parseHex4 (hexDig (n / 4096 % 16)) (hexDig (n / 256 % 16))
      (hexDig (n / 16 % 16)) (hexDig (n % 16)) = some n := by
  rw [parseHex4, parseHexDig_hexDig _ (by omega), parseHexDig_hexDig _ (by omega),
    parseHexDig_hexDig _ (by omega), parseHexDig_hexDig _ (by omega)]
  simp only [Option.some.injEq]
  omega

theorem parseU_hex4 (n : Nat) (hn : n < 65536) (t : List Nat) :
    parseU (92 :: 117 :: (hex4 n ++ t)) = some (n, t) := by
  simp only [hex4, List.cons_append, List.nil_append]
  simp [parseU, parseHex4_hex4 n hn]

/-- A high-surrogate escape followed by a low-surrogate escape is consumed
in one scanner iteration and recombined. -/
theorem parseStringBodyF_pair (fuel : Nat) (a1 a2 a3 a4 b1 b2 b3 b4 n m : Nat)
    (tail : List Nat)
    (ha : parseHex4 a1 a2 a3 a4 = some n)
    (hb : parseHex4 b1 b2 b3 b4 = some m)
    (hn : 55296 ≤ n ∧ n < 56320) (hm : 56320 ≤ m ∧ m < 57344) :
    parseStringBodyF (fuel + 1)
      (92 :: 117 :: a1 :: a2 :: a3 :: a4 :: 92 :: 117 :: b1 :: b2 :: b3 :: b4 :: tail) =
      consResult (65536 + (n - 55296) * 1024 + (m - 56320))
        (parseStringBodyF fuel tail) := by
  simp only [parseStringBodyF]
  rw [ha]
  rw [show parseU (92 :: 117 :: b1 :: b2 :: b3 :: b4 :: tail) = some (m, tail) from by
    simp [parseU, hb]]
  simp [hn, hm]

/-- One scanner iteration consumes exactly the encoding of one valid code
point and emits that code point. -/
theorem parseStringBodyF_encodeChar (fuel : Nat) (c : Nat) (hc : validScalar c)
    (tail : List Nat) :
    parseStringBodyF (fuel + 1) (encodeChar c ++ tail) =
      consResult c (parseStringBodyF fuel tail) := by
  by_cases h34 : c = 34
  · subst h34; simp [encodeChar, parseStringBodyF, escChar]
  by_cases h92 : c = 92
  · subst h92; simp [encodeChar, parseStringBodyF, escChar]
  by_cases h8 : c = 8
  · subst h8; simp [encodeChar, parseStringBodyF, escChar]
  by_cases h9 : c = 9
  · subst h9; simp [encodeChar, parseStringBodyF, escChar]
  by_cases h10 : c = 10
  · subst h10; simp [encodeChar, parseStringBodyF, escChar]
  by_cases h12 : c = 12
  · subst h12; simp [encodeChar, parseStringBodyF, escChar]
  by_cases h13 : c = 13
  · subst h13; simp [encodeChar, parseStringBodyF, escChar]
  by_cases hpr : 32 ≤ c ∧ c ≤ 126
  · have e : encodeChar c = [c] := by
      unfold encodeChar
      simp [h34, h92, h8, h9, h10, h12, h13, hpr]
    rw [e]
    simp [parseStringBodyF, h34, h92, show ¬c < 32 by omega]
  by_cases hbmp : c < 65536
  · have e : encodeChar c = 92 :: 117 :: hex4 c := by
      unfold encodeChar
      simp [h34, h92, h8, h9, h10, h12, h13, hpr, hbmp]
    have hsur : ¬(55296 ≤ c ∧ c < 56320) := by
      rcases hc with h | h <;> omega
    rw [e]
    simp only [hex4, List.cons_append, List.nil_append]
    simp [parseStringBodyF, parseHex4_hex4 c hbmp, hsur]
  · have hlt : c < 1114112 := by rcases hc with h | h <;> omega
    have e : encodeChar c =
        (92 :: 117 :: hex4 (55296 + (c - 65536) / 1024)) ++
          (92 :: 117 :: hex4 (56320 + (c - 65536) % 1024)) := by
      unfold encodeChar
      simp [h34, h92, h8, h9, h10, h12, h13, hpr, hbmp]
    have hhi : 55296 + (c - 65536) / 1024 < 65536 := by omega
    have hlo : 56320 + (c - 65536) % 1024 < 65536 := by omega
    rw [e]
    simp only [hex4, List.cons_append, List.append_assoc, List.nil_append]
    rw [parseStringBodyF_pair fuel _ _ _ _ _ _ _ _
      (55296 + (c - 65536) / 1024) (56320 + (c - 65536) % 1024) tail
      (parseHex4_hex4 _ hhi) (parseHex4_hex4 _ hlo)
      (by omega) (by omega)]
    have hval : 65536 + (55296 + (c - 65536) / 1024 - 55296) * 1024 +
        (56320 + (c - 65536) % 1024 - 56320) = c := by omega
    rw [hval]

/-- Scanning the encoded body of a string followed by the closing quote
recovers the string, given enough fuel (one unit per code point). -/
theorem parseStringBodyF_encode (s : List Nat) :
    ∀ (fuel : Nat), (∀ c ∈ s, validScalar c) → s.length < fuel →
      ∀ (rest : List Nat),
        parseStringBodyF fuel (s.flatMap encodeChar ++ 34 :: rest) = some (s, rest) := by
  induction s with
  | nil =>
    intro fuel _ hf rest
    match fuel, hf with
    | fuel + 1, _ => simp [parseStringBodyF]
  | cons c s ih =>
    intro fuel hv hf rest
    match fuel, hf with
    | fuel + 1, hf =>
      have hstep := parseStringBodyF_encodeChar fuel c (hv c (by simp))
        (s.flatMap encodeChar ++ 34 :: rest)
      calc parseStringBodyF (fuel + 1) ((c :: s).flatMap encodeChar ++ 34 :: rest)
          = parseStringBodyF (fuel + 1)
              (encodeChar c ++ (s.flatMap encodeChar ++ 34 :: rest)) := by
            simp [List.flatMap_cons, List.append_assoc]
        _ = consResult c (parseStringBodyF fuel (s.flatMap encodeChar ++ 34 :: rest)) :=
            hstep
        _ = consResult c (some (s, rest)) := by
            rw [ih fuel (fun d hd => hv d (by simp [hd]))
              (by simpa using Nat.lt_of_succ_lt_succ hf) rest]
        _ = some (c :: s, rest) := by simp [consResult]

theorem encodeChar_length_pos (c : Nat) : 0 < (encodeChar c).length := by
  unfold encodeChar
  split_ifs <;> simp [hex4]

theorem length_le_flatMap_encodeChar (s : List Nat) :
    s.length ≤ (s.flatMap encodeChar).length := by
  induction s with
  | nil => simp
  | cons c s ih =>
    have := encodeChar_length_pos c
    simp only [List.flatMap_cons, List.length_append, List.length_cons]
    omega

/-- The string scanner inverts the string encoder on any remaining input. -/
theorem parseStringBody_encode (s : List Nat) (hv : ∀ c ∈ s, validScalar c)
    (rest : List Nat) :
    parseStringBody (s.flatMap encodeChar ++ 34 :: rest) = some (s, rest) := by
  unfold parseStringBody
  apply parseStringBodyF_encode s _ hv _ rest
  have := length_le_flatMap_encodeChar s
  simp only [List.length_append, List.length_cons]
  omega

/-! ### Round trip of the number codec -/

theorem natReprAux_digits :
    ∀ (fuel n : Nat), n < fuel → ∀ c ∈ natReprAux fuel n, 48 ≤ c ∧ c ≤ 57 := by
  intro fuel
  induction fuel with
  | zero => intro n hn; exact absurd hn (Nat.not_lt_zero n)
  | succ fuel ih =>
    intro n hn c hc
    unfold natReprAux at hc
    by_cases h : n < 10
    · simp [h] at hc
      omega
    · simp [h] at hc
      rcases hc with hc | hc
      · exact ih (n / 10) (by omega) c hc
      · omega

theorem natReprAux_ne_nil (fuel n : Nat) (hn : n < fuel) :
    natReprAux fuel n ≠ [] := by
  match fuel, hn with
  | fuel + 1, _ =>
    unfold natReprAux
    split <;> simp

theorem digitsVal_append (xs ys : List Nat) (acc : Nat) :
    digitsVal (xs ++ ys) acc = digitsVal ys (digitsVal xs acc) := by
  simp [digitsVal, List.foldl_append]

theorem digitsVal_natReprAux :
    ∀ (fuel n acc : Nat), n < fuel →
      digitsVal (natReprAux fuel n) acc =
        acc * 10 ^ (natReprAux fuel n).length + n := by
  intro fuel
  induction fuel with
  | zero => intro n acc hn; exact absurd hn (Nat.not_lt_zero n)
  | succ fuel ih =>
    intro n acc hn
    unfold natReprAux
    by_cases h : n < 10
    · simp [h, digitsVal]
    · simp only [h, if_false]
      rw [digitsVal_append, ih (n / 10) acc (by omega)]
      simp only [digitsVal, List.foldl_cons, List.foldl_nil, List.length_append,
        List.length_cons, List.length_nil]
      have h48 : 48 + n % 10 - 48 = n % 10 := by omega
      rw [h48, pow_succ]
      have hq : n / 10 * 10 + n % 10 = n := by omega
      calc (acc * 10 ^ (natReprAux fuel (n / 10)).length + n / 10) * 10 + n % 10
          = acc * (10 ^ (natReprAux fuel (n / 10)).length * 10) +
              (n / 10 * 10 + n % 10) := by ring
        _ = acc * (10 ^ (natReprAux fuel (n / 10)).length * 10) + n := by rw [hq]

theorem parseDigits_no_digit (rest : List Nat) (acc : Nat)
    (h : ∀ c, rest.head? = some c → ¬(48 ≤ c ∧ c ≤ 57)) :
    parseDigits rest acc = (acc, rest) := by
  cases rest with
  | nil => rfl
  | cons c t => simp [parseDigits, h c rfl]

theorem parseDigits_append (ds : List Nat) :
    ∀ (rest : List Nat) (acc : Nat), (∀ c ∈ ds, 48 ≤ c ∧ c ≤ 57) →
      (∀ c, rest.head? = some c → ¬(48 ≤ c ∧ c ≤ 57)) →
      parseDigits (ds ++ rest) acc = (digitsVal ds acc, rest) := by
  induction ds with
  | nil =>
    intro rest acc _ h
    simp only [List.nil_append, digitsVal, List.foldl_nil]
    exact parseDigits_no_digit rest acc h
  | cons d ds ih =>
    intro rest acc hds h
    have hd := hds d (by simp)
    simp only [List.cons_append, parseDigits, hd, and_self, if_true, reduceIte,
      List.append_eq]
    rw [ih rest _ (fun c hc => hds c (by simp [hc])) h]
    simp [digitsVal]

/-- Parsing the decimal representation of `n` followed by a non-digit
recovers `n`. -/
theorem parseNat_natRepr (n : Nat) (rest : List Nat)
    (h : ∀ c, rest.head? = some c → ¬(48 ≤ c ∧ c ≤ 57)) :
    parseNat (natRepr n ++ rest) = some (n, rest) := by
  obtain ⟨d, ds, hds⟩ : ∃ d ds, natRepr n = d :: ds := by
    cases hh : natRepr n with
    | nil => exact absurd hh (natReprAux_ne_nil (n + 1) n (by omega))
    | cons d ds => exact ⟨d, ds, rfl⟩
  have hdig : ∀ c ∈ natRepr n, 48 ≤ c ∧ c ≤ 57 :=
    natReprAux_digits (n + 1) n (by omega)
  have hd : 48 ≤ d ∧ d ≤ 57 := hdig d (by rw [hds]; simp)
  have hval : digitsVal (natRepr n) 0 = n := by
    have := digitsVal_natReprAux (n + 1) n 0 (by omega)
    simpa [natRepr] using this
  rw [hds] at hval ⊢
  simp only [List.cons_append, parseNat, hd, and_self, if_true, reduceIte]
  rw [parseDigits_append ds rest (d - 48)
    (fun c hc => hdig c (by rw [hds]; simp [hc])) h]
  simp only [digitsVal, List.foldl_cons] at hval
  simp only [Option.some.injEq, Prod.mk.injEq, and_true]
  simpa [digitsVal] using hval

/-! ### Round trip of the whole transport object -/

theorem stripTok_self_append (t s : List Nat) : stripTok t (t ++ s) = some s := by
  induction t with
  | nil => rfl
  | cons a t ih => simp [stripTok, ih]

theorem encodeString_append (s r : List Nat) :
    encodeString s ++ r = 34 :: (s.flatMap encodeChar ++ (34 :: r)) := by
  simp [encodeString]

/-- C4: decoding the encoded transport string yields the original
configuration, for arbitrary path strings of Unicode scalar values. -/
theorem wrapper_config_roundtrip (cfg : WrapperConfig)
    (hcc : ∀ c ∈ cfg.cc, validScalar c) (hcxx : ∀ c ∈ cfg.cxx, validScalar c) :
    jsonDecodeConfig (wrapper_environment cfg) = some cfg := by
  obtain ⟨v, cc, cxx⟩ := cfg
  simp only at hcc hcxx
  unfold jsonDecodeConfig wrapper_environment
  dsimp only
  simp only [List.append_assoc]
  rw [stripTok_self_append]
  simp only [Option.bind_eq_bind, Option.some_bind]
  rw [parseNat_natRepr v _ (by intro c hc; simp [tokCc] at hc; omega)]
  simp only [Option.some_bind]
  rw [show tokCc ++ (encodeString cc ++ (tokCxx ++ (encodeString cxx ++ [125]))) =
    (tokCc ++ [34]) ++ (cc.flatMap encodeChar ++
      (34 :: (tokCxx ++ (encodeString cxx ++ [125])))) from by
    simp [encodeString]]
  rw [stripTok_self_append]
  simp only [Option.some_bind]
  rw [parseStringBody_encode cc hcc]
  simp only [Option.some_bind]
  rw [show tokCxx ++ (encodeString cxx ++ [125]) =
    (tokCxx ++ [34]) ++ (cxx.flatMap encodeChar ++ (34 :: [125])) from by
    simp [encodeString]]
  rw [stripTok_self_append]
  simp only [Option.some_bind]
  rw [parseStringBody_encode cxx hcxx]
  simp only [Option.some_bind]
  rfl

theorem startsWithCpp_iff (l : List Nat) :
    startsWithCpp l = true ↔ ∃ t, l = 99 :: 43 :: 43 :: t := by
  match l with
  | [] => simp [startsWithCpp]
  | [a] => simp [startsWithCpp]
  | [a, b] => simp [startsWithCpp]
  | a :: b :: c :: t =>
    simp only [startsWithCpp, Bool.and_eq_true, beq_iff_eq]
    constructor
    · rintro ⟨⟨ha, hb⟩, hc⟩
      exact ⟨t, by rw [ha, hb, hc]⟩
    · rintro ⟨t', ht⟩
      injection ht with h1 ht
      injection ht with h2 ht
      injection ht with h3 _
      exact ⟨⟨h1, h2⟩, h3⟩

theorem cxxSearch_iff (l : List Nat) :
    cxxSearch l = true ↔
      ∃ pre suf : List Nat, (10 : Nat) ∉ pre ∧
        l = pre ++ [99, 43, 43] ++ suf := by
  induction l with
  | nil =>
    simp only [cxxSearch]
    constructor
    · intro h; exact absurd h (by simp)
    · rintro ⟨pre, suf, _, h⟩
      exact absurd h (by simp)
  | cons c rest ih =>
    simp only [cxxSearch, Bool.or_eq_true, Bool.and_eq_true, bne_iff_ne,
      startsWithCpp_iff, ih]
    constructor
    · rintro (⟨t, ht⟩ | ⟨hc, pre, suf, hpre, h⟩)
      · exact ⟨[], t, by simp, by simp [ht]⟩
      · refine ⟨c :: pre, suf, ?_, by simp [h]⟩
        simp only [List.mem_cons, not_or]
        exact ⟨fun h10 => hc h10.symm, hpre⟩
    · rintro ⟨pre, suf, hpre, h⟩
      cases pre with
      | nil =>
        left
        exact ⟨suf, by simpa using h⟩
      | cons p pre =>
        right
        simp only [List.mem_cons, not_or] at hpre
        have hcp : c = p := by
          have := congrArg (fun t => t.head?) h
          simpa using this
        refine ⟨by rw [hcp]; exact fun hp => hpre.1 hp.symm, pre, suf, hpre.2, ?_⟩
        simpa using congrArg List.tail h

/-- The regex `(.+)c\+\+(.*)` matches the basename iff `c++` occurs after a
nonempty, newline-free prefix (`.` does not match a newline). -/
theorem is_cxx_iff (wrapper_command : List Nat) :
    is_cxx wrapper_command = true ↔
      ∃ pre suf : List Nat, pre ≠ [] ∧ (10 : Nat) ∉ pre ∧
        wrapper_command = pre ++ [99, 43, 43] ++ suf := by
  cases wrapper_command with
  | nil =>
    simp only [is_cxx]
    constructor
    · intro h; exact absurd h (by simp)
    · rintro ⟨pre, suf, hpre, _, h⟩
      cases pre with
      | nil => exact absurd rfl hpre
      | cons p pre => exact absurd h (by simp)
  | cons c rest =>
    simp only [is_cxx, Bool.and_eq_true, bne_iff_ne, cxxSearch_iff]
    constructor
    · rintro ⟨hc, pre, suf, hpre, h⟩
      refine ⟨c :: pre, suf, by simp, ?_, by simp [h]⟩
      simp only [List.mem_cons, not_or]
      exact ⟨fun h10 => hc h10.symm, hpre⟩
    · rintro ⟨pre, suf, hpre, hpre10, h⟩
      cases pre with
      | nil => exact absurd rfl hpre
      | cons p pre =>
        simp only [List.mem_cons, not_or] at hpre10
        have hcp : c = p := by
          have := congrArg (fun t => t.head?) h
          simpa using this
        refine ⟨by rw [hcp]; exact fun hp => hpre10.1 hp.symm, pre, suf,
          hpre10.2, ?_⟩
        simpa using congrArg List.tail h

/-- Shared unfolding of a wrapper run whose configuration decodes. -/
theorem wrapper_entry_point_ok (wrapper_command : List Nat)
    (args : List (List Nat)) (call : List (List Nat) → Int)
    (function : List Nat → List (List Nat) → Int → List Nat → List Nat →
      CallOutcome Unit)
    (transport : List Nat) (parameters : WrapperConfig)
    (hdec : jsonDecodeConfig transport = some parameters) :
    wrapper_entry_point (some transport) wrapper_command args call function =
      .ok (call (selected_compiler wrapper_command parameters :: args),
        [.compilerCall (selected_compiler wrapper_command parameters :: args),
         .reportCall]) := by
  unfold wrapper_entry_point
  dsimp only
  rw [hdec]
  dsimp only [shell_decode, List.cons_append, List.nil_append]
  cases function (selected_compiler wrapper_command parameters)
    (selected_compiler wrapper_command parameters :: args)
    (call (selected_compiler wrapper_command parameters :: args))
    parameters.cc parameters.cxx with
  | ok _ => rfl
  | raised _ => rfl

/-! ## Claim theorems -/

/-- C1: whenever the wrapper's configuration decodes, the wrapper returns
exactly the exit code produced by the synchronous real-compiler invocation,
and the outcome is the same for every behaviour of the wrapped reporting
function — including reporting functions that raise exceptions of any
class (the bare `except:` catches and logs them). -/
theorem claim_wrapper_exit_code (wrapper_command : List Nat)
    (args : List (List Nat)) (call : List (List Nat) → Int)
    (report report' : List Nat → List (List Nat) → Int → List Nat → List Nat →
      CallOutcome Unit)
    (transport : List Nat) (parameters : WrapperConfig)
    (hdec : jsonDecodeConfig transport = some parameters) :
    wrapper_entry_point (some transport) wrapper_command args call report =
      .ok (call (selected_compiler wrapper_command parameters :: args),
        [.compilerCall (selected_compiler wrapper_command parameters :: args),
         .reportCall])
    ∧ wrapper_entry_point (some transport) wrapper_command args call report =
        wrapper_entry_point (some transport) wrapper_command args call report' := by
  refine ⟨wrapper_entry_point_ok _ _ _ _ _ _ hdec, ?_⟩
  rw [wrapper_entry_point_ok _ _ _ _ _ _ hdec,
    wrapper_entry_point_ok _ _ _ _ _ _ hdec]

/-- C1 witness: a fake compiler exiting `1` and a reporting sink that always
raises still yield exit code `1`. -/
theorem claim_wrapper_exit_code_witness :
    wrapper_entry_point
        (some (wrapper_environment ⟨0, strCp "/usr/bin/cc", strCp "/usr/bin/c++"⟩))
        (strCp "cc") [strCp "-c", strCp "f.c"] (fun _ => 1)
        (fun _ _ _ _ _ => .raised .ordinary) =
      .ok (1, [.compilerCall [strCp "/usr/bin/cc", strCp "-c", strCp "f.c"],
        .reportCall]) := by
  have h := (claim_wrapper_exit_code (strCp "cc") [strCp "-c", strCp "f.c"]
    (fun _ => 1) (fun _ _ _ _ _ => .raised .ordinary) (fun _ _ _ _ _ => .ok ())
    (wrapper_environment ⟨0, strCp "/usr/bin/cc", strCp "/usr/bin/c++"⟩)
    ⟨0, strCp "/usr/bin/cc", strCp "/usr/bin/c++"⟩ (by decide)).1
  exact h.trans (by decide)

/-- C2 counterexample: the basename `clang++` does not contain `c++`, so the
regex `(.+)c\+\+(.*)` fails and the wrapper selects the `cc` path, not the
`cxx` path claimed. -/
theorem claim_personality_counterexample :
    selected_compiler (strCp "clang++")
        ⟨0, strCp "/usr/bin/clang", strCp "/usr/bin/clang++"⟩ =
      strCp "/usr/bin/clang"
    ∧ strCp "/usr/bin/clang" ≠ strCp "/usr/bin/clang++" :=
  ⟨by decide, by decide⟩

/-- C2 (amended): the wrapper selects `cxxPath` exactly when the basename
matches `(.+)c\+\+(.*)`, i.e. contains a literal `c++` preceded by at least
one character none of which is a newline (re's `.` does not match a
newline); so `x86_64-c++-13` and `intercept-c++` select `cxxPath`, while
`clang++` (no `c++` substring), plain `cc`, and a basename whose `c++` is
preceded by a newline all select `ccPath`. -/
theorem claim_personality_selection (wrapper_command : List Nat)
    (parameters : WrapperConfig) :
    (selected_compiler wrapper_command parameters =
        if is_cxx wrapper_command then parameters.cxx else parameters.cc)
    ∧ (is_cxx wrapper_command = true ↔
        ∃ pre suf : List Nat, pre ≠ [] ∧ (10 : Nat) ∉ pre ∧
          wrapper_command = pre ++ [99, 43, 43] ++ suf)
    ∧ selected_compiler (strCp "x86_64-c++-13") parameters = parameters.cxx
    ∧ selected_compiler (strCp "intercept-c++") parameters = parameters.cxx
    ∧ selected_compiler (strCp "clang++") parameters = parameters.cc
    ∧ selected_compiler (strCp "cc") parameters = parameters.cc
    ∧ selected_compiler (strCp "a\nc++") parameters = parameters.cc := by
  refine ⟨rfl, is_cxx_iff wrapper_command, ?_, ?_, ?_, ?_, ?_⟩
  · simp [selected_compiler,
      show is_cxx (strCp "x86_64-c++-13") = true from by decide]
  · simp [selected_compiler,
      show is_cxx (strCp "intercept-c++") = true from by decide]
  · simp [selected_compiler,
      show is_cxx (strCp "clang++") = false from by decide]
  · simp [selected_compiler, show is_cxx (strCp "cc") = false from by decide]
  · simp [selected_compiler,
      show is_cxx (strCp "a\nc++") = false from by decide]

/-- C3: on a run whose configuration decodes, the command executed for the
real compilation is exactly `shell_decode resolvedCompiler ++ args`, which
is the one-element list of the resolved compiler path followed by the
wrapper's own arguments unmodified and in order. -/
theorem claim_command_passthrough (wrapper_command : List Nat)
    (args : List (List Nat)) (call : List (List Nat) → Int)
    (report : List Nat → List (List Nat) → Int → List Nat → List Nat →
      CallOutcome Unit)
    (transport : List Nat) (parameters : WrapperConfig)
    (hdec : jsonDecodeConfig transport = some parameters) :
    ∀ (result : Int) (events : List WrapperEvent),
      wrapper_entry_point (some transport) wrapper_command args call report =
          .ok (result, events) →
        WrapperEvent.compilerCall
            (shell_decode (selected_compiler wrapper_command parameters) ++ args) ∈
          events
        ∧ shell_decode (selected_compiler wrapper_command parameters) ++ args =
            selected_compiler wrapper_command parameters :: args := by
  intro result events h
  rw [wrapper_entry_point_ok _ _ _ _ _ _ hdec] at h
  injection h with h
  injection h with _ hev
  subst hev
  exact ⟨by simp [shell_decode], rfl⟩

/-- C3 witness: a C++-personality run with arguments `-O2` executes exactly
`['/usr/bin/c++', '-O2']`. -/
theorem claim_command_passthrough_witness :
    WrapperEvent.compilerCall
        (shell_decode (selected_compiler (strCp "intercept-c++")
          ⟨0, strCp "/usr/bin/cc", strCp "/usr/bin/c++"⟩) ++ [strCp "-O2"]) ∈
      [WrapperEvent.compilerCall [strCp "/usr/bin/c++", strCp "-O2"],
       WrapperEvent.reportCall]
    ∧ shell_decode (selected_compiler (strCp "intercept-c++")
          ⟨0, strCp "/usr/bin/cc", strCp "/usr/bin/c++"⟩) ++ [strCp "-O2"] =
        selected_compiler (strCp "intercept-c++")
          ⟨0, strCp "/usr/bin/cc", strCp "/usr/bin/c++"⟩ :: [strCp "-O2"] :=
  claim_command_passthrough (strCp "intercept-c++") [strCp "-O2"] (fun _ => 0)
    (fun _ _ _ _ _ => .ok ())
    (wrapper_environment ⟨0, strCp "/usr/bin/cc", strCp "/usr/bin/c++"⟩)
    ⟨0, strCp "/usr/bin/cc", strCp "/usr/bin/c++"⟩ (by decide) 0
    [WrapperEvent.compilerCall [strCp "/usr/bin/c++", strCp "-O2"],
     WrapperEvent.reportCall] (by decide)

/-- C9: when the transport value is absent or does not decode, the wrapper
run fails with the propagated exception; no compiler invocation and no
report can appear in any successful outcome, because there is none. -/
theorem claim_config_fatal (env : Option (List Nat)) (wrapper_command : List Nat)
    (args : List (List Nat)) (call : List (List Nat) → Int)
    (report : List Nat → List (List Nat) → Int → List Nat → List Nat →
      CallOutcome Unit)
    (h : env = none ∨
      ∃ transport, env = some transport ∧ jsonDecodeConfig transport = none) :
    wrapper_entry_point env wrapper_command args call report = .raised .ordinary
    ∧ ∀ (result : Int) (events : List WrapperEvent),
        wrapper_entry_point env wrapper_command args call report ≠
          .ok (result, events) := by
  have hfat : wrapper_entry_point env wrapper_command args call report =
      .raised .ordinary := by
    rcases h with h | ⟨transport, henv, hdec⟩
    · subst h; rfl
    · subst henv
      unfold wrapper_entry_point
      dsimp only
      rw [hdec]
  refine ⟨hfat, fun result events hok => ?_⟩
  rw [hfat] at hok
  exact CallOutcome.noConfusion hok

/-- C9 witness: a missing variable and the unparseable value `not json` are
both fatal. -/
theorem claim_config_fatal_witness :
    wrapper_entry_point none (strCp "cc") [] (fun _ => 0)
        (fun _ _ _ _ _ => .ok ()) = .raised .ordinary
    ∧ wrapper_entry_point (some (strCp "not json")) (strCp "cc") [] (fun _ => 0)
        (fun _ _ _ _ _ => .ok ()) = .raised .ordinary :=
  ⟨(claim_config_fatal none (strCp "cc") [] (fun _ => 0)
      (fun _ _ _ _ _ => .ok ()) (Or.inl rfl)).1,
   (claim_config_fatal (some (strCp "not json")) (strCp "cc") [] (fun _ => 0)
      (fun _ _ _ _ _ => .ok ())
      (Or.inr ⟨strCp "not json", rfl, by decide⟩)).1⟩

/-- C5: the predicate built by `duplicate_check` answers `true` at position
`i` exactly when the entry's hash already occurs among the hashes of the
earlier entries (so `false` marks a first occurrence); the internal state
only ever grows; and for entries `A, A, B` with distinct fingerprints the
answers are `false, true, false`. -/
theorem claim_duplicate_check {α β : Type} [DecidableEq β]
    (hash_function : α → β) (entries : List α) (a b : α)
    (hab : hash_function a ≠ hash_function b) :
    (∀ (i : Nat) (hi : i < entries.length),
        (duplicate_run hash_function entries ∅)[i]? =
          some (decide (hash_function (entries.get ⟨i, hi⟩) ∈
            (entries.take i).map hash_function)))
    ∧ (∀ state : Finset β, state ⊆ duplicate_state hash_function entries state)
    ∧ duplicate_run hash_function [a, a, b] ∅ = [false, true, false] := by
  refine ⟨?_, fun state => duplicate_state_grows hash_function entries state, ?_⟩
  · intro i hi
    rw [duplicate_run_get hash_function entries ∅ i hi]
    congr 1
    exact decide_eq_decide.mpr (by simp)
  · rw [duplicate_run_cons, duplicate_run_cons, duplicate_run_cons]
    simp [duplicate_run, hab, Ne.symm hab]

/-- C5 witness: with the identity fingerprint, `[5]` answers `false` at its
only position, and `[0, 0, 1]` answers `false, true, false`. -/
theorem claim_duplicate_check_witness :
    (duplicate_run (id : Nat → Nat) [5] ∅)[0]? = some false
    ∧ duplicate_run (id : Nat → Nat) [0, 0, 1] ∅ = [false, true, false] :=
  ⟨((claim_duplicate_check (id : Nat → Nat) [5] 0 1 (by decide)).1 0
      Nat.zero_lt_one).trans (by decide),
   (claim_duplicate_check (id : Nat → Nat) [0, 0, 1] 0 1 (by decide)).2.2⟩

/-- C6 counterexample: a `SystemExit` raised by the wrapped function (e.g.
`sys.exit` inside an argparse-using entry function) matches neither
`except KeyboardInterrupt` nor `except Exception`, so the guard does not
return `64` — the exception propagates (with `logging.shutdown()` still
run by the `finally` block), refuting the claim's `any other uncaught
exception yields exit code 64`. -/
theorem claim_command_entry_point_counterexample :
    command_entry_point (fun _ => .raised .systemExit) =
      (.raised .systemExit, [.shutdown])
    ∧ (command_entry_point (fun _ => .raised .systemExit)).1 ≠ .ok 64 :=
  ⟨rfl, by decide⟩

/-- C6 (amended): the guard returns the wrapped function's value as the
exit code, `130` on `KeyboardInterrupt`, `64` with a logged diagnostic on
any other `Exception`-class exception; a `SystemExit` (a `BaseException`
outside `Exception`) escapes both handlers and propagates; and
`logging.shutdown()` runs on every exit path, propagation included. -/
theorem claim_command_entry_point (function : Unit → CallOutcome Int) :
    (∀ v, function () = .ok v →
        command_entry_point function = (.ok v, [.shutdown]))
    ∧ (function () = .raised .interrupt →
        command_entry_point function = (.ok 130, [.warnedInterrupt, .shutdown]))
    ∧ (function () = .raised .ordinary →
        (command_entry_point function).1 = .ok 64 ∧
          LogEvent.loggedException ∈ (command_entry_point function).2)
    ∧ (function () = .raised .systemExit →
        command_entry_point function = (.raised .systemExit, [.shutdown]))
    ∧ LogEvent.shutdown ∈ (command_entry_point function).2 := by
  rcases h : function () with v | e
  · refine ⟨fun w hw => ?_, fun hw => ?_, fun hw => ?_, fun hw => ?_, ?_⟩
    · injection hw with hw
      simp [command_entry_point, h, hw]
    · exact absurd hw (by simp)
    · exact absurd hw (by simp)
    · exact absurd hw (by simp)
    · simp [command_entry_point, h]
  · cases e
    · refine ⟨fun w hw => absurd hw (by simp), fun hw => absurd hw (by simp),
        fun _ => ?_, fun hw => absurd hw (by simp), ?_⟩
      · simp [command_entry_point, h]
      · simp [command_entry_point, h]
    · refine ⟨fun w hw => absurd hw (by simp), fun _ => ?_,
        fun hw => absurd hw (by simp), fun hw => absurd hw (by simp), ?_⟩
      · simp [command_entry_point, h]
      · simp [command_entry_point, h]
    · refine ⟨fun w hw => absurd hw (by simp), fun hw => absurd hw (by simp),
        fun hw => absurd hw (by simp), fun _ => ?_, ?_⟩
      · simp [command_entry_point, h]
      · simp [command_entry_point, h]

/-- C6 amended-claim witness: a function returning `0` exits `0`; an
interrupt exits `130`; an ordinary exception exits `64`; a `SystemExit`
propagates with the shutdown still run. -/
theorem claim_command_entry_point_witness :
    command_entry_point (fun _ => .ok 0) = (.ok 0, [.shutdown])
    ∧ command_entry_point (fun _ => .raised .interrupt) =
        (.ok 130, [.warnedInterrupt, .shutdown])
    ∧ (command_entry_point (fun _ => .raised .ordinary)).1 = .ok 64
    ∧ command_entry_point (fun _ => .raised .systemExit) =
        (.raised .systemExit, [.shutdown]) :=
  ⟨(claim_command_entry_point (fun _ => .ok 0)).1 0 rfl,
   (claim_command_entry_point (fun _ => .raised .interrupt)).2.1 rfl,
   ((claim_command_entry_point (fun _ => .raised .ordinary)).2.2.1 rfl).1,
   (claim_command_entry_point (fun _ => .raised .systemExit)).2.2.2.1 rfl⟩

/-- C7: level `0` performs no reconfiguration; for level `≥ 1` the installed
threshold is `max 0 (WARNING - 10 * level)` (10 units per level below the
WARNING baseline, floored at the fully verbose floor `0`); the format
string carries `%(funcName)s` exactly when the level exceeds `3`. -/
theorem claim_reconfigure_logging (verbose_level : Nat) :
    (verbose_level = 0 → reconfigure_logging verbose_level = none)
    ∧ (1 ≤ verbose_level →
        ∃ cfg, reconfigure_logging verbose_level = some cfg
          ∧ cfg.threshold = max 0 (pyWARNING - 10 * (verbose_level : Int))
          ∧ (includesFuncName cfg.fmt ↔ 3 < verbose_level)) := by
  constructor
  · intro h
    simp [reconfigure_logging, h]
  · intro h
    have hne : ¬verbose_level = 0 := by omega
    refine ⟨_, by rw [reconfigure_logging, if_neg hne], ?_, ?_⟩
    · dsimp only
      unfold pyWARNING
      have hcast : (1 : Int) ≤ (verbose_level : Int) := by exact_mod_cast h
      omega
    · by_cases h3 : verbose_level ≤ 3
      · simp only [h3, if_true, reduceIte]
        constructor
        · intro hinc
          exact absurd hinc (by decide)
        · omega
      · simp only [h3, if_false, reduceIte]
        constructor
        · intro _
          omega
        · intro _
          decide

/-- C7 witness: level `0` leaves logging alone; level `2` lowers the
threshold to `10` without the function name; level `4` reaches the floor
`0` and adds the function name. -/
theorem claim_reconfigure_logging_witness :
    reconfigure_logging 0 = none
    ∧ (∃ cfg, reconfigure_logging 2 = some cfg
        ∧ cfg.threshold = max 0 (pyWARNING - 10 * ((2 : Nat) : Int))
        ∧ (includesFuncName cfg.fmt ↔ 3 < 2))
    ∧ (∃ cfg, reconfigure_logging 4 = some cfg
        ∧ cfg.threshold = max 0 (pyWARNING - 10 * ((4 : Nat) : Int))
        ∧ (includesFuncName cfg.fmt ↔ 3 < 4)) :=
  ⟨(claim_reconfigure_logging 0).1 rfl,
   (claim_reconfigure_logging 2).2 (by omega),
   (claim_reconfigure_logging 4).2 (by omega)⟩

/-- C8: `run_command` succeeds with the decoded, line-split combined output
exactly when the command exits `0`, and raises `CalledProcessError` carrying
the non-zero status and the same decoded, line-split output otherwise. -/
theorem claim_run_command (exitStatus : Int) (output : List Nat) :
    (∀ lines, run_command exitStatus output = .ok lines ↔
        (exitStatus = 0 ∧ lines = splitlines output))
    ∧ (∀ (s : Int) (lines : List (List Nat)),
        run_command exitStatus output = .error (s, lines) ↔
          (exitStatus ≠ 0 ∧ s = exitStatus ∧ lines = splitlines output)) := by
  by_cases h : exitStatus = 0
  · constructor
    · intro lines
      unfold run_command
      rw [if_pos h]
      constructor
      · intro hok
        injection hok with hok
        exact ⟨h, hok.symm⟩
      · rintro ⟨_, hl⟩
        rw [hl]
    · intro s lines
      unfold run_command
      rw [if_pos h]
      constructor
      · intro hok
        exact Except.noConfusion hok
      · rintro ⟨hne, _, _⟩
        exact absurd h hne
  · constructor
    · intro lines
      unfold run_command
      rw [if_neg h]
      constructor
      · intro hok
        exact Except.noConfusion hok
      · rintro ⟨hz, _⟩
        exact absurd hz h
    · intro s lines
      unfold run_command
      rw [if_neg h]
      constructor
      · intro herr
        injection herr with herr
        injection herr with h1 h2
        exact ⟨h, h1.symm, h2.symm⟩
      · rintro ⟨_, hs, hl⟩
        rw [hs, hl]

/-- C8 witness: a command exiting `1` with output `err1\nerr2\n` raises with
status `1` and the two output lines. -/
theorem claim_run_command_witness :
    run_command 1 (strCp "err1\nerr2\n") =
      .error (1, [strCp "err1", strCp "err2"]) :=
  ((claim_run_command 1 (strCp "err1\nerr2\n")).2 1
    [strCp "err1", strCp "err2"]).mpr ⟨by decide, rfl, by decide⟩

/-- C10 counterexample: a `KeyboardInterrupt` raised by the wrapped function
escapes the `require` wrapper (its `except Exception` does not catch it), so
the caller observes an exception rather than a `None` return. -/
theorem claim_require_counterexample :
    require [] (fun _ => (.raised .interrupt : CallOutcome Int)) [] =
      .raised .interrupt
    ∧ ∀ v : Option Int,
        require [] (fun _ => (.raised .interrupt : CallOutcome Int)) [] ≠
          .ok v := by
  have h1 : require [] (fun _ => (.raised .interrupt : CallOutcome Int)) [] =
      .raised .interrupt := rfl
  refine ⟨h1, fun v hok => ?_⟩
  rw [h1] at hok
  exact CallOutcome.noConfusion hok

/-- C10 (amended): when a required key is missing from `opts`, the wrapper
returns `None` without invoking the wrapped function; an `Exception`-class
exception raised by the wrapped function is caught and converted to `None`;
a returned value is passed through; but a raised `KeyboardInterrupt`
propagates to the caller. -/
theorem claim_require {α : Type} (required : List Nat)
    (function function' : List Nat → CallOutcome α) (opts : List Nat) :
    ((∃ key ∈ required, key ∉ opts) →
        require required function opts = .ok none
        ∧ require required function opts = require required function' opts)
    ∧ ((∀ key ∈ required, key ∈ opts) →
        (∀ a, function opts = .ok a →
            require required function opts = .ok (some a))
        ∧ (function opts = .raised .ordinary →
            require required function opts = .ok none)
        ∧ (function opts = .raised .interrupt →
            require required function opts = .raised .interrupt)) := by
  constructor
  · rintro ⟨key, hkey, hmiss⟩
    have hcond : ¬(required.all (fun k => opts.contains k) = true) := by
      simp only [List.all_eq_true]
      intro hforall
      exact hmiss (by simpa using hforall key hkey)
    constructor
    · unfold require
      rw [if_neg hcond]
    · unfold require
      rw [if_neg hcond, if_neg hcond]
  · intro hpres
    have hall : required.all (fun k => opts.contains k) = true := by
      simp only [List.all_eq_true]
      intro k hk
      simpa using hpres k hk
    refine ⟨fun a ha => ?_, fun ha => ?_, fun ha => ?_⟩ <;>
    · unfold require
      rw [if_pos hall, ha]

/-- C10 amended-claim witness: key `1` missing yields `None` without calling
the function; with the key present an ordinary failure yields `None` and a
returned `7` is passed through. -/
theorem claim_require_witness :
    require [1] (fun _ => (.ok 7 : CallOutcome Nat)) [] = .ok none
    ∧ require [1] (fun _ => (.ok 7 : CallOutcome Nat)) [1, 2] = .ok (some 7)
    ∧ require [1] (fun _ => (.raised .ordinary : CallOutcome Nat)) [1, 2] =
        .ok none :=
  ⟨((claim_require [1] (fun _ => (.ok 7 : CallOutcome Nat))
      (fun _ => .ok 7) []).1 ⟨1, by decide, by decide⟩).1,
   ((claim_require [1] (fun _ => (.ok 7 : CallOutcome Nat))
      (fun _ => .ok 7) [1, 2]).2 (by decide)).1 7 rfl,
   (((claim_require [1] (fun _ => (.raised .ordinary : CallOutcome Nat))
      (fun _ => .raised .ordinary) [1, 2]).2 (by decide)).2.1 rfl)⟩

/-- C4 witness: a configuration with spaces and non-ASCII characters
(including an astral code point) survives the round trip. -/
theorem wrapper_config_roundtrip_witness :
    jsonDecodeConfig (wrapper_environment
        ⟨2, strCp "/usr bin/cláng π", strCp "/opt/😀/c++ x"⟩) =
      some ⟨2, strCp "/usr bin/cláng π", strCp "/opt/😀/c++ x"⟩ :=
  wrapper_config_roundtrip _ (by decide) (by decide)
